import Mathlib

/-!
Verification development for the `library_updater` ingestion pipeline
(`src/updater.rs`, `src/types.rs`, `src/utils.rs`).

The Rust sources are shallowly embedded: the gate/wait machinery and the
orchestrator control flow of `updater.rs` become explicit functions over
small inductive state types, the plpgsql stored procedures installed by
`types.rs` become pure functions over list-modelled tables (SQL `NULL` is
`Option.none`, `SELECT ... INTO` yields `none` on an empty result, and
`=` against `NULL` is never true), and the string sanitizers of
`utils.rs` become functions over `List Char` mirroring Rust's
left-to-right non-overlapping `str::replace`.
-/

/-- Status value published through a gate (`enum UpdateStatus` in
`updater.rs`): `Success` or `Fail`. -/
inductive UpdateStatus where
  | success
  | fail
deriving DecidableEq, Repr

/-- A gate cell as seen by the wait loop: `Option<UpdateStatus>` behind the
mutex (`Arc<Mutex<Option<UpdateStatus>>>`); `none` is pending. -/
abbrev Gate := Option UpdateStatus

/-- The `some_failed` flag computed by one iteration of the wait loop in
`process` (`updater.rs` lines 91-103): true iff some dep is `Some(Fail)`. -/
def someFailed (deps : List Gate) : Bool :=
  deps.any (fun d => d == some UpdateStatus.fail)

/-- The `some_none` flag computed by one iteration of the wait loop in
`process` (`updater.rs` lines 91-103): true iff some dep is `None`. -/
def someNone (deps : List Gate) : Bool :=
  deps.any (fun d => d == none)

/-- The break condition of the wait loop (`updater.rs` line 105):
the loop exits iff `!some_failed && !some_none`.  With static gate
contents, one loop iteration completes the wait stage iff this holds. -/
def waitCompletes (deps : List Gate) : Bool :=
  !someFailed deps && !someNone deps

/-- Fuel-indexed unfolding of the wait loop of `process`
(`updater.rs` lines 89-111) for fixed gate contents: returns `true` iff
the loop breaks within the given number of iterations. -/
def awaitAll : Nat → List Gate → Bool
  | 0, _ => false
  | fuel + 1, deps => if waitCompletes deps then true else awaitAll fuel deps

/-- The six gate-owning tasks of the orchestrator (`update` in
`updater.rs`): the tasks that write an `UpdateStatus` into their own
status cell. -/
inductive Owner where
  | author
  | book
  | sequence
  | bookAnnot
  | authorAnnot
  | genre
deriving DecidableEq, Repr

/-- The sequence of gate writes performed by an owning task's spawn body
given its `process` result (`updater.rs` lines 298-312, 317-330, 349-363,
376-391, 410-430, 448-461).  Each match arm of the source performs exactly
one `*status = Some(..)` write; `ok` tells which arm ran.  The `Author`
body writes `Success` in *both* arms; every other owner writes `Success`
on `Ok` and `Fail` on `Err`. -/
def ownerGateWrites (o : Owner) (ok : Bool) : List UpdateStatus :=
  match o, ok with
  | Owner.author, true => [UpdateStatus.success]
  | Owner.author, false => [UpdateStatus.success]
  | Owner.book, true => [UpdateStatus.success]
  | Owner.book, false => [UpdateStatus.fail]
  | Owner.sequence, true => [UpdateStatus.success]
  | Owner.sequence, false => [UpdateStatus.fail]
  | Owner.bookAnnot, true => [UpdateStatus.success]
  | Owner.bookAnnot, false => [UpdateStatus.fail]
  | Owner.authorAnnot, true => [UpdateStatus.success]
  | Owner.authorAnnot, false => [UpdateStatus.fail]
  | Owner.genre, true => [UpdateStatus.success]
  | Owner.genre, false => [UpdateStatus.fail]

/-- Outcome of joining one spawned task (`process.await` in `update`,
`updater.rs` lines 484-487): either the task ran to completion with an
inner `Result` (`joined`), or the join itself failed (`joinErr`,
the task panicked). -/
inductive JoinOutcome where
  | joined (taskOk : Bool)
  | joinErr
deriving DecidableEq, Repr

/-- How the pipeline entry point `update` terminates, as observed by its
caller: normal `Ok` return, an `Err` return, or a panic. -/
inductive RunOutcome where
  | ok
  | errReturn
  | panicked
deriving DecidableEq, Repr

/-- The join-and-aggregate loop of `update` (`updater.rs` lines 470-505)
followed by the webhook send: a join error is returned as `Err`; a task
that completed with `Err` triggers `panic!`; if every task completed
with `Ok`, `send_webhooks` runs and its failure is returned as `Err`. -/
def joinAll : List JoinOutcome → Bool → RunOutcome
  | [], webhooksOk => if webhooksOk then RunOutcome.ok else RunOutcome.errReturn
  | JoinOutcome.joinErr :: _, _ => RunOutcome.errReturn
  | JoinOutcome.joined false :: _, _ => RunOutcome.panicked
  | JoinOutcome.joined true :: rest, webhooksOk => joinAll rest webhooksOk

/-- A joined task outcome that completed with `Ok`. -/
def joinedOk (r : JoinOutcome) : Bool :=
  r == JoinOutcome.joined true

/-- A joined task outcome that completed (was not a join error). -/
def joinedDone (r : JoinOutcome) : Bool :=
  r != JoinOutcome.joinErr

/-- A joined task outcome that completed with `Err`. -/
def joinedFailed (r : JoinOutcome) : Bool :=
  r == JoinOutcome.joined false

/-- An id-lookup table row `(source, remote_id, id)` for the parent
tables `books`, `authors`, `sequences` of the target store. -/
abbrev IdRow := Int × Int × Int

/-- `SELECT id INTO v FROM t WHERE source = src AND remote_id = rid`:
plpgsql `SELECT INTO` assigns `NULL` (here `none`) when no row matches,
overwriting any previous value of the variable. -/
def lookupId (t : List IdRow) (src rid : Int) : Option Int :=
  (t.find? (fun r => r.1 == src && r.2.1 == rid)).map (fun r => r.2.2)

/-- SQL equality against nullable values: `x = y` is true only when both
sides are non-`NULL` and equal (`NULL = anything` is unknown, never
satisfying a `WHERE` clause or `EXISTS`). -/
def sqlEqOpt (a b : Option Int) : Bool :=
  match a, b with
  | some x, some y => x == y
  | _, _ => false

/-- A row of the `translations` table: `(book, author, position)`, the
foreign keys modelled as nullable to capture what the stored procedure
actually inserts. -/
structure TransRow where
  book : Option Int
  author : Option Int
  position : Int
deriving DecidableEq, Repr

/-- The stored procedure `update_translation` installed by
`Translator::before_update` (`types.rs` lines 315-343), transcribed
statement by statement: `author_id` is initialized to `-1`; `book_id` is
selected; the `IF book_id IS NULL OR author_id IS NULL` test runs *before*
the `SELECT` that assigns `author_id`, so at that point `author_id` is
still `-1`; only then is `author_id` selected, followed by the
`EXISTS`-guarded update-or-insert on `translations`. -/
def update_translation (books authors : List IdRow) (trans : List TransRow)
    (src book_r author_r pos : Int) : List TransRow :=
  let author_id0 : Option Int := some (-1)
  let book_id := lookupId books src book_r
  if book_id.isNone || author_id0.isNone then trans
  else
    let author_id := lookupId authors src author_r
    if trans.any (fun t => sqlEqOpt t.book book_id && sqlEqOpt t.author author_id) then
      trans.map (fun t =>
        if sqlEqOpt t.book book_id && sqlEqOpt t.author author_id then
          { t with position := pos }
        else t)
    else trans ++ [⟨book_id, author_id, pos⟩]

/-- A row of the `author_annotations` table: `(author, title, text)`,
the foreign key modelled as nullable. -/
structure AnnotRow where
  author : Option Int
  title : String
  body : Option String
deriving DecidableEq, Repr

/-- The stored procedure `update_author_annotation` installed by
`AuthorAnnotation::before_update` (`types.rs` lines 694-714), transcribed
statement by statement: `author_id` is selected (`NULL` when the author
is absent), the `EXISTS` check compares `author = author_id`, and the
insert happens unconditionally — there is no `IF author_id IS NULL THEN
RETURN` guard (unlike `update_book_annotation`). -/
def update_author_annotation_proc (authors : List IdRow) (anns : List AnnotRow)
    (src author_r : Int) (title : String) (body : Option String) : List AnnotRow :=
  let author_id := lookupId authors src author_r
  if anns.any (fun a => sqlEqOpt a.author author_id) then
    anns.map (fun a =>
      if sqlEqOpt a.author author_id then { a with title := title, body := body }
      else a)
  else anns ++ [⟨author_id, title, body⟩]

/-- A row of the `authors` table as written by `update_author`:
`(source, remote_id, first_name, last_name, middle_name)` (the serial
`id` plays no role in the upsert logic). -/
structure AuthorRow where
  source : Int
  remote_id : Int
  first_name : String
  last_name : String
  middle_name : String
deriving DecidableEq, Repr

/-- The stored procedure `update_author` installed by
`Author::before_update` (`types.rs` lines 58-79): if a row with the given
`(source, remote_id)` exists, update its name fields; otherwise insert. -/
def update_author (t : List AuthorRow) (src rid : Int)
    (f l m : String) : List AuthorRow :=
  if t.any (fun r => r.source == src && r.remote_id == rid) then
    t.map (fun r =>
      if r.source == src && r.remote_id == rid then
        { r with first_name := f, last_name := l, middle_name := m }
      else r)
  else t ++ [⟨src, rid, f, l, m⟩]

/-- A row of the `books` table as written by `update_book`. -/
structure BookRow where
  source : Int
  remote_id : Int
  title : String
  lang : String
  file_type : String
  uploaded : String
  is_deleted : Bool
  pages : Int
  year : Int
deriving DecidableEq, Repr

/-- The stored procedure `update_book` installed by
`Book::before_update` (`types.rs` lines 157-182): if a row with the given
`(source, remote_id)` exists, update all payload fields; otherwise
insert. -/
def update_book (t : List BookRow) (src rid : Int) (ti la ft up : String)
    (de : Bool) (pg yr : Int) : List BookRow :=
  if t.any (fun r => r.source == src && r.remote_id == rid) then
    t.map (fun r =>
      if r.source == src && r.remote_id == rid then
        { r with title := ti, lang := la, file_type := ft, uploaded := up,
                 is_deleted := de, pages := pg, year := yr }
      else r)
  else t ++ [⟨src, rid, ti, la, ft, up, de, pg, yr⟩]

/-- A row of the `sequences` table as written by `update_sequences`. -/
structure SeqRow where
  source : Int
  remote_id : Int
  name : String
deriving DecidableEq, Repr

/-- The stored procedure `update_sequences` installed by
`Sequence::before_update` (`types.rs` lines 395-412): if a row with the
given `(source, remote_id)` exists, update `name`; otherwise insert. -/
def update_sequences (t : List SeqRow) (src rid : Int)
    (nm : String) : List SeqRow :=
  if t.any (fun r => r.source == src && r.remote_id == rid) then
    t.map (fun r =>
      if r.source == src && r.remote_id == rid then { r with name := nm }
      else r)
  else t ++ [⟨src, rid, nm⟩]

/-- A parsed SQL literal as produced by the `sql_parse` crate for a value
cell: `int` is `Expression::Integer` (a `u64`), `neg` is
`Expression::Unary { op: Minus, operand: Integer }`, plus string and
`NULL` literals. -/
inductive Lit where
  | int (n : Nat)
  | str (s : String)
  | null
  | neg (n : Nat)
deriving DecidableEq, Repr

/-- The `position` branch of `SequenceInfo::from_vec_expression`
(`types.rs` lines 454-465): an `Integer(v)` yields `v.0`, and a
`Unary { Minus, Integer(v) }` also yields `v.0` — the minus sign is
dropped; any other literal kind panics (`none`). -/
def seqPositionFromLit : Lit → Option Nat
  | Lit.int n => some n
  | Lit.neg n => some n
  | _ => none

/-- Rust's `as i16` cast on a `u64` (`self.position as i16` in
`SequenceInfo::update`, `types.rs` line 518): truncation to the low 16
bits, read as two's complement. -/
def rustAsI16 (n : Nat) : Int :=
  let m := n % 65536
  if m < 32768 then (m : Int) else (m : Int) - 65536

/-- PostgreSQL `ABS` on a `smallint` argument as used by
`update_book_sequence` (`types.rs` lines 493, 496): the absolute value,
except that `ABS(-32768)` overflows the `smallint` range and raises an
error (`none`). -/
def sqlAbsSmallint (x : Int) : Option Int :=
  if x = -32768 then none else some (x.natAbs : Int)

/-- The value that ends up in `book_sequences.position` for a row whose
position literal is `l` (assuming both parents resolve): the mapper's
extraction, Rust's `as i16` cast, then SQL `ABS`. -/
def storedSeqPosition (l : Lit) : Option Int :=
  (seqPositionFromLit l).bind (fun n => sqlAbsSmallint (rustAsI16 n))

/-- The signed integer value denoted by a position literal
(`integer(n)` or `unary-minus(integer(n))`). -/
def litValue : Lit → Option Int
  | Lit.int n => some (n : Int)
  | Lit.neg n => some (-(n : Int))
  | _ => none

/-- The twelve ingest entities of `types.rs`. -/
inductive Entity where
  | author
  | book
  | bookAuthor
  | translator
  | sequence
  | sequenceInfo
  | bookAnnot
  | bookAnnotPic
  | authorAnnot
  | authorAnnotPic
  | genre
  | bookGenre
deriving DecidableEq, Repr

/-- The names of the stored procedures created (`CREATE OR REPLACE
FUNCTION`) by each entity's `before_update` hook in `types.rs`.  Note
`Genre::before_update` (lines 829-855) creates a three-argument function
named `update_book_sequence` (a book-genre upsert), not `update_genre`. -/
def installedProcsByBefore : Entity → List String
  | Entity.author => ["update_author"]
  | Entity.book => ["update_book"]
  | Entity.bookAuthor => ["update_book_author"]
  | Entity.translator => ["update_translation"]
  | Entity.sequence => ["update_sequences"]
  | Entity.sequenceInfo => ["update_book_sequence"]
  | Entity.bookAnnot => ["update_book_annotation"]
  | Entity.bookAnnotPic => []
  | Entity.authorAnnot => ["update_author_annotation"]
  | Entity.authorAnnotPic => []
  | Entity.genre => ["update_book_sequence"]
  | Entity.bookGenre => []

/-- The name of the stored procedure invoked by each entity's per-row
`update` in `types.rs` (`none` for the two pic entities, which issue a
plain `UPDATE` statement).  `Genre::update` (line 864) calls
`update_genre`; `BookGenre::update` (line 912) calls
`update_book_sequence`. -/
def upsertProcCalled : Entity → Option String
  | Entity.author => some "update_author"
  | Entity.book => some "update_book"
  | Entity.bookAuthor => some "update_book_author"
  | Entity.translator => some "update_translation"
  | Entity.sequence => some "update_sequences"
  | Entity.sequenceInfo => some "update_book_sequence"
  | Entity.bookAnnot => some "update_book_annotation"
  | Entity.bookAnnotPic => none
  | Entity.authorAnnot => some "update_author_annotation"
  | Entity.authorAnnotPic => none
  | Entity.genre => some "update_genre"
  | Entity.bookGenre => some "update_book_sequence"

/-- All twelve entities, for quantifier-free enumeration. -/
def allEntities : List Entity :=
  [Entity.author, Entity.book, Entity.bookAuthor, Entity.translator,
   Entity.sequence, Entity.sequenceInfo, Entity.bookAnnot,
   Entity.bookAnnotPic, Entity.authorAnnot, Entity.authorAnnotPic,
   Entity.genre, Entity.bookGenre]

/-- `str::replace(c, "")` for a single-character pattern: every
occurrence of `c` is removed. -/
def removeChar (c : Char) (l : List Char) : List Char :=
  l.filter (fun x => x ≠ c)

/-- `str::replace(c, r)` for single-character pattern and replacement:
every occurrence of `c` becomes `r`. -/
def replaceChar (c r : Char) (l : List Char) : List Char :=
  l.map (fun x => if x = c then r else x)

/-- `str::replace(pat, rep)` for a two-character pattern `[a, b]` and a
one-character replacement `r`: left-to-right, non-overlapping. -/
def unescapePair (a b r : Char) : List Char → List Char
  | [] => []
  | [c] => [c]
  | c1 :: c2 :: rest =>
    if c1 = a ∧ c2 = b then r :: unescapePair a b r rest
    else c1 :: unescapePair a b r (c2 :: rest)

/-- `remove_wrong_chars` (`utils.rs` lines 15-21) over `List Char`: in
source order, remove `;`, replace newline with space, replace `ё` with
`е`, unescape `\"` to `"`, unescape `\'` to `'`. -/
def removeWrongChars (l : List Char) : List Char :=
  unescapePair '\\' '\'' '\'' (unescapePair '\\' '"' '"'
    (replaceChar 'ё' 'е' (replaceChar '\n' ' ' (removeChar ';' l))))

/-- Environment of one row iteration of the loop in `process`
(`updater.rs` lines 152-167): whether `pool.get()` succeeded at that row
and whether `value.update(..)` returned `Ok`. -/
structure RowEnv where
  checkout : Bool
  updateOk : Bool
deriving DecidableEq, Repr

/-- The distinguishable causes of an `Err` return from `process`. -/
inductive ProcErr where
  | downloadErr
  | ioErr
  | dbErr
deriving DecidableEq, Repr

/-- How `process` terminates: `Ok`, `Err(..)`, or a panic (from an
`unwrap()` on a failed pool checkout). -/
inductive ProcOutcome where
  | ok
  | err (e : ProcErr)
  | panicked
deriving DecidableEq, Repr

/-- The row loop of `process` (`updater.rs` lines 137-169): at each row a
connection is checked out with `pool.get().await.unwrap()` — a failed
checkout panics — and then the row upsert runs, whose `Err` is returned
as the task's error.  Result `none` means the loop finished all rows. -/
def runRows : List RowEnv → Option ProcOutcome
  | [] => none
  | r :: rest =>
    if !r.checkout then some ProcOutcome.panicked
    else if !r.updateOk then some (ProcOutcome.err ProcErr.dbErr)
    else runRows rest

/-- Environment for one run of the body of `process` after the wait
stage (`updater.rs` lines 113-178): download result, `read_lines`
result, the pool-checkout and hook results of the `before` phase, the
per-row environments, and the pool-checkout and hook results of the
`after` phase. -/
structure ProcEnv where
  download : Bool
  readLines : Bool
  beforeCheckout : Bool
  beforeOk : Bool
  rows : List RowEnv
  afterCheckout : Bool
  afterOk : Bool
deriving DecidableEq, Repr

/-- The body of `process` after the wait stage (`updater.rs` lines
113-178), in source order: download (`Err` returned), `read_lines`
(`Err` returned), `pool.get().await.unwrap()` then `T::before_update`
(checkout failure panics, hook `Err` returned), the row loop, then
`pool.get().await.unwrap()` and `T::after_update` likewise. -/
def processBody (env : ProcEnv) : ProcOutcome :=
  if !env.download then ProcOutcome.err ProcErr.downloadErr
  else if !env.readLines then ProcOutcome.err ProcErr.ioErr
  else if !env.beforeCheckout then ProcOutcome.panicked
  else if !env.beforeOk then ProcOutcome.err ProcErr.dbErr
  else
    match runRows env.rows with
    | some o => o
    | none =>
      if !env.afterCheckout then ProcOutcome.panicked
      else if !env.afterOk then ProcOutcome.err ProcErr.dbErr
      else ProcOutcome.ok

/-- The common shape of the `(source, remote_id)`-keyed stored
procedures (`update_author`, `update_book`, `update_sequences`): if a
matching row exists, update all matching rows; otherwise insert. -/
def upsertStep {α : Type} (m : α → Bool) (u : α → α) (ins : α)
    (t : List α) : List α :=
  if t.any m then t.map (fun r => if m r then u r else r) else t ++ [ins]

theorem awaitAll_of_not_completes (deps : List Gate)
    (h : waitCompletes deps = false) :
    ∀ fuel, awaitAll fuel deps = false := by
  intro fuel
  induction fuel with
  | zero => rfl
  | succ n ih => rw [awaitAll, h]; simpa using ih

theorem awaitAll_true_iff (fuel : Nat) (deps : List Gate) :
    awaitAll (fuel + 1) deps = true ↔ waitCompletes deps = true := by
  constructor
  · intro h
    by_cases hc : waitCompletes deps = true
    · exact hc
    · rw [awaitAll_of_not_completes deps (by simpa using hc)] at h
      exact absurd h (by simp)
  · intro h
    rw [awaitAll, h]
    simp

theorem waitCompletes_eq_all_success (deps : List Gate) :
    waitCompletes deps = deps.all (fun g => g == some UpdateStatus.success) := by
  induction deps with
  | nil => rfl
  | cons g rest ih =>
    cases g with
    | none => simp [waitCompletes, someFailed, someNone] at *
    | some s =>
      cases s with
      | success =>
        simp [waitCompletes, someFailed, someNone, List.any_cons, List.all_cons] at *
        exact ih
      | fail => simp [waitCompletes, someFailed, someNone] at *

/-- C1 counterexample: a dependency list whose single gate is `Fail` is
entirely non-pending, yet the wait loop's break condition is false and the
loop does not complete in (for instance) 50 iterations — a `failed`
dependency gate prevents the dependent task from ever proceeding,
refuting the claim that the wait stage completes exactly when every gate
is non-pending. -/
theorem wait_fail_gate_blocks :
    ([some UpdateStatus.fail] : List Gate).all (fun g => g.isSome) = true ∧
    waitCompletes [some UpdateStatus.fail] = false ∧
    awaitAll 50 [some UpdateStatus.fail] = false := by
  decide

/-- C1 (amended): the wait stage of `process` completes (for any positive
fuel) exactly when every dependency gate is `Success`; a gate left
`pending` or set to `Fail` keeps the loop spinning forever, so a `failed`
dependency does block the dependent task from reaching its download and
upsert phases.  (With an empty dependency list the loop is skipped;
`waitCompletes [] = true` agrees.) -/
theorem wait_stage_completes_iff_all_success (deps : List Gate) (fuel : Nat) :
    awaitAll (fuel + 1) deps = true ↔
      deps.all (fun g => g == some UpdateStatus.success) = true := by
  rw [awaitAll_true_iff, waitCompletes_eq_all_success]

/-- C5: every owning task's spawn body publishes exactly one status to its
gate, and the published value is `Success` whenever the task succeeded,
while on task failure it is `Success` for the `Author` owner and `Fail`
for every other owner (`Book`, `Sequence`, `BookAnnotation`,
`AuthorAnnotation`, `Genre`). -/
theorem owner_gate_publish_spec (o : Owner) (ok : Bool) :
    (ownerGateWrites o ok).length = 1 ∧
    ownerGateWrites o ok =
      [if ok || (o == Owner.author) then UpdateStatus.success
       else UpdateStatus.fail] := by
  cases o <;> cases ok <;> exact ⟨rfl, rfl⟩

/-- C4 counterexample: when a joined task completed with `Err`, the
orchestrator's aggregation loop panics (`panic!` arm of `update`,
`updater.rs` line 491); it does not return an error result, refuting the
claim that the pipeline entry point returns an error result when a task
returned an error. -/
theorem join_task_error_panics_not_err :
    joinAll [JoinOutcome.joined false] true = RunOutcome.panicked ∧
    RunOutcome.panicked ≠ RunOutcome.errReturn ∧
    RunOutcome.panicked ≠ RunOutcome.ok := by
  decide

/-- C4 (amended): joining the tasks, if every task completed and any of
them returned an error, the entry point panics (rather than returning an
error value); if every task succeeded, the run returns success provided
the post-run webhook fan-out succeeds (and an `Err` return otherwise). -/
theorem join_aggregate_behavior (rs : List JoinOutcome) (w : Bool) :
    (rs.all joinedOk = true →
      joinAll rs w = (if w then RunOutcome.ok else RunOutcome.errReturn)) ∧
    (rs.all joinedDone = true → rs.any joinedFailed = true →
      joinAll rs w = RunOutcome.panicked) := by
  induction rs with
  | nil =>
    refine ⟨fun _ => rfl, fun _ h => ?_⟩
    simp [List.any] at h
  | cons r rest ih =>
    cases r with
    | joined taskOk =>
      cases taskOk with
      | true =>
        refine ⟨fun h => ?_, fun h1 h2 => ?_⟩
        · exact ih.1 (by simpa [joinedOk] using h)
        · refine ih.2 (by simpa [joinedDone] using h1) ?_
          simpa [joinedFailed] using h2
      | false =>
        refine ⟨fun h => ?_, fun _ _ => rfl⟩
        simp [joinedOk, List.all_cons] at h
    | joinErr =>
      refine ⟨fun h => ?_, fun h1 _ => ?_⟩
      · simp [joinedOk, List.all_cons] at h
      · simp [joinedDone, List.all_cons] at h1

/-- C4 witness: the amended behavior at concrete inputs — one succeeding
task with succeeding webhooks yields `Ok`; one failing task yields a
panic. -/
theorem join_aggregate_behavior_witness :
    joinAll [JoinOutcome.joined true] true = RunOutcome.ok ∧
    joinAll [JoinOutcome.joined false] true = RunOutcome.panicked := by
  constructor
  · have h := (join_aggregate_behavior [JoinOutcome.joined true] true).1 (by decide)
    simpa using h
  · exact (join_aggregate_behavior [JoinOutcome.joined false] true).2
      (by decide) (by decide)

theorem upsertStep_idem {α : Type} (m : α → Bool) (u : α → α) (ins : α)
    (hu : ∀ r, u (u r) = u r) (hm : ∀ r, m (u r) = m r)
    (hmi : m ins = true) (hui : u ins = ins) (t : List α) :
    upsertStep m u ins (upsertStep m u ins t) = upsertStep m u ins t := by
  by_cases h : t.any m = true
  · have hmap : (t.map (fun r => if m r then u r else r)).any m = true := by
      rcases List.any_eq_true.mp h with ⟨r, hr, hmr⟩
      refine List.any_eq_true.mpr ⟨if m r then u r else r, List.mem_map_of_mem _ hr, ?_⟩
      rw [if_pos hmr, hm r]
      exact hmr
    have e1 : upsertStep m u ins t = t.map (fun r => if m r then u r else r) := by
      rw [upsertStep, if_pos h]
    rw [e1, upsertStep, if_pos hmap, List.map_map]
    refine List.map_congr_left ?_
    intro r _
    by_cases hmr : m r = true
    · simp only [Function.comp, if_pos hmr, hm r, hmr, if_pos, hu r]
    · have hmr' : m r = false := by simpa using hmr
      simp only [Function.comp, hmr', Bool.false_eq_true, if_neg, if_false]
  · have h' : t.any m = false := by simpa using h
    have hall : ∀ r ∈ t, m r = false := by
      intro x hx
      simpa using List.any_eq_false.mp h' x hx
    have e1 : upsertStep m u ins t = t ++ [ins] := by
      rw [upsertStep, if_neg h]
    have happ : (t ++ [ins]).any m = true := by
      rw [List.any_append, h']
      simp [hmi]
    rw [e1, upsertStep, if_pos happ, List.map_append]
    have hfix : t.map (fun r => if m r then u r else r) = t := by
      have := List.map_congr_left (f := fun r => if m r then u r else r)
        (g := id) (l := t) (by
          intro a ha
          simp [hall a ha])
      simpa using this
    rw [hfix]
    simp [hmi, hui]

/-- C7: for the entities whose upsert is keyed by `(source, remote_id)`
(`update_author`, `update_book`, `update_sequences`), executing the
stored-procedure upsert of a row twice in succession leaves the table in
the same state as executing it once. -/
theorem keyed_upserts_idempotent :
    (∀ (t : List AuthorRow) (src rid : Int) (f l m : String),
      update_author (update_author t src rid f l m) src rid f l m =
        update_author t src rid f l m) ∧
    (∀ (t : List BookRow) (src rid : Int) (ti la ft up : String)
        (de : Bool) (pg yr : Int),
      update_book (update_book t src rid ti la ft up de pg yr)
          src rid ti la ft up de pg yr =
        update_book t src rid ti la ft up de pg yr) ∧
    (∀ (t : List SeqRow) (src rid : Int) (nm : String),
      update_sequences (update_sequences t src rid nm) src rid nm =
        update_sequences t src rid nm) := by
  refine ⟨fun t src rid f l m => ?_,
          fun t src rid ti la ft up de pg yr => ?_,
          fun t src rid nm => ?_⟩
  · exact upsertStep_idem
      (fun r => r.source == src && r.remote_id == rid)
      (fun r => { r with first_name := f, last_name := l, middle_name := m })
      ⟨src, rid, f, l, m⟩
      (fun r => rfl) (fun r => rfl) (by simp) rfl t
  · exact upsertStep_idem
      (fun r => r.source == src && r.remote_id == rid)
      (fun r => { r with title := ti, lang := la, file_type := ft,
                         uploaded := up, is_deleted := de, pages := pg,
                         year := yr })
      ⟨src, rid, ti, la, ft, up, de, pg, yr⟩
      (fun r => rfl) (fun r => rfl) (by simp) rfl t
  · exact upsertStep_idem
      (fun r => r.source == src && r.remote_id == rid)
      (fun r => { r with name := nm })
      ⟨src, rid, nm⟩
      (fun r => rfl) (fun r => rfl) (by simp) rfl t

/-- C2: evaluation of the procedure-name model at the failing entity.
`Genre::before_update` creates a stored procedure named
`update_book_sequence` (a three-argument book-genre upsert), not
`update_genre`, while every `Genre` row upsert calls `update_genre` — a
name no before hook in the program ever creates.  (`BookGenre`, whose
before hook is empty, is the entity that calls the procedure `Genre`
installs.) -/
theorem genre_before_installs_wrong_proc :
    installedProcsByBefore Entity.genre = ["update_book_sequence"] ∧
    upsertProcCalled Entity.genre = some "update_genre" ∧
    ((allEntities.map installedProcsByBefore).flatten.contains "update_genre") = false ∧
    installedProcsByBefore Entity.bookGenre = [] ∧
    upsertProcCalled Entity.bookGenre = some "update_book_sequence" := by
  decide

/-- C3: evaluation of `update_translation` at the failing input.  With
`books` containing `(source 1, remote_id 1, id 10)` and an empty
`authors` table, upserting the Translator row `(book 1, author 999,
position 0)` inserts `(book 10, author NULL, position 0)` into
`translations` — the row is not silently skipped, because the
`IS NULL` test reads `author_id` before the author lookup assigns it.
When the *book* parent is absent the row is skipped as claimed. -/
theorem translator_missing_author_inserts_null :
    update_translation [(1, 1, 10)] [] [] 1 1 999 0 =
      [{ book := some 10, author := none, position := 0 }] ∧
    ([{ book := some 10, author := none, position := 0 }] : List TransRow) ≠ [] ∧
    update_translation [] [] [] 1 1 999 0 = [] := by
  refine ⟨rfl, ?_, rfl⟩
  simp

/-- C6: evaluation of `update_author_annotation` at the failing input.
With an empty `authors` table, upserting an AuthorAnnotation row for the
absent author `remote_id 5` inserts `(author NULL, title, body)` into
`author_annotations` — the table is changed, not left unchanged: the
procedure has no `IF author_id IS NULL THEN RETURN` guard. -/
theorem author_annotation_missing_parent_inserts :
    update_author_annotation_proc [] [] 1 5 "t" (some "b") =
      [{ author := none, title := "t", body := some "b" }] ∧
    ([{ author := none, title := "t", body := some "b" }] : List AnnotRow) ≠ [] := by
  refine ⟨rfl, ?_⟩
  simp

/-- C8 counterexample: for the position literal `integer(40000)` the
mapper keeps `40000`, Rust's `as i16` cast truncates it to `-25536`, and
SQL `ABS` stores `25536` — which is not the absolute value `40000` of
the literal. -/
theorem seq_position_truncation_counterexample :
    storedSeqPosition (Lit.int 40000) = some 25536 ∧
    litValue (Lit.int 40000) = some 40000 ∧ (25536 : Int) ≠ 40000 := by
  refine ⟨rfl, rfl, by decide⟩

theorem sqlAbsSmallint_nonneg (x v : Int) (h : sqlAbsSmallint x = some v) :
    0 ≤ v := by
  rw [sqlAbsSmallint] at h
  split at h
  · exact absurd h (by simp)
  · have hv : ((x.natAbs : Int)) = v := Option.some.inj h
    omega

/-- C8 (amended): for a position literal `integer(n)` or
`unary-minus(integer(n))` with `n ≤ 32767` (so that the `as i16` cast is
value-preserving), the value stored in `book_sequences.position` is `n`,
the absolute value of the literal; and whatever the literal, any stored
position is nonnegative. -/
theorem seq_position_abs_of_small (n : Nat) (h : n ≤ 32767) :
    (storedSeqPosition (Lit.int n) = some (n : Int) ∧
     storedSeqPosition (Lit.neg n) = some (n : Int)) ∧
    ∀ (l : Lit) (v : Int), storedSeqPosition l = some v → 0 ≤ v := by
  have hmod : n % 65536 = n := Nat.mod_eq_of_lt (by omega)
  have hcast : rustAsI16 n = (n : Int) := by
    rw [rustAsI16]
    simp only [hmod]
    rw [if_pos (by omega)]
  have habs : sqlAbsSmallint ((n : Int)) = some (n : Int) := by
    rw [sqlAbsSmallint, if_neg (by omega)]
    simp
  constructor
  · constructor
    · simp [storedSeqPosition, seqPositionFromLit, hcast, habs]
    · simp [storedSeqPosition, seqPositionFromLit, hcast, habs]
  · intro l v hv
    cases l with
    | int k => exact sqlAbsSmallint_nonneg _ _ hv
    | neg k => exact sqlAbsSmallint_nonneg _ _ hv
    | str s => simp [storedSeqPosition, seqPositionFromLit] at hv
    | null => simp [storedSeqPosition, seqPositionFromLit] at hv

/-- C8 witness: the amended theorem applied at the spec's scenario S3 —
a `SequenceInfo` position literal `-3` stores `3`. -/
theorem seq_position_abs_witness :
    storedSeqPosition (Lit.neg 3) = some 3 :=
  ((seq_position_abs_of_small 3 (by decide)).1).2

theorem mem_replaceChar {x c r : Char} {l : List Char}
    (h : x ∈ replaceChar c r l) : x = r ∨ (x ∈ l ∧ x ≠ c) := by
  rcases List.mem_map.mp h with ⟨y, hy, he⟩
  by_cases hyc : y = c
  · left
    rw [← he, if_pos hyc]
  · right
    refine ⟨?_, ?_⟩
    · rw [← he, if_neg hyc]
      exact hy
    · rw [← he, if_neg hyc]
      exact hyc

theorem mem_unescapePair (a b r x : Char) (l : List Char)
    (h : x ∈ unescapePair a b r l) : x = r ∨ x ∈ l := by
  induction l using unescapePair.induct a b r with
  | case1 => simp [unescapePair] at h
  | case2 c =>
    rw [unescapePair] at h
    right
    exact h
  | case3 c1 c2 rest hc ih =>
    rw [unescapePair, if_pos hc] at h
    rcases List.mem_cons.mp h with h1 | h2
    · left
      exact h1
    · rcases ih h2 with h3 | h4
      · left
        exact h3
      · right
        exact List.mem_cons_of_mem _ (List.mem_cons_of_mem _ h4)
  | case4 c1 c2 rest hc ih =>
    rw [unescapePair, if_neg hc] at h
    rcases List.mem_cons.mp h with h1 | h2
    · right
      rw [h1]
      exact List.mem_cons_self _ _
    · rcases ih h2 with h3 | h4
      · left
        exact h3
      · right
        exact List.mem_cons_of_mem _ h4

theorem not_mem_replaceChar (c r x : Char) (m : List Char)
    (hr : x ≠ r) (hcm : x = c ∨ x ∉ m) : x ∉ replaceChar c r m := by
  intro h
  rcases mem_replaceChar h with h1 | ⟨h2, h3⟩
  · exact hr h1
  · rcases hcm with h4 | h5
    · exact h3 h4
    · exact h5 h2

theorem not_mem_unescapePair (a b r x : Char) (m : List Char)
    (hr : x ≠ r) (hm : x ∉ m) : x ∉ unescapePair a b r m := by
  intro h
  rcases mem_unescapePair a b r x m h with h1 | h2
  · exact hr h1
  · exact hm h2

/-- C9 counterexample: on the spec's boundary input `a;b\nc\"d` (the
eight characters `a ; b newline c backslash quote d`),
`remove_wrong_chars` returns `ab c"d` — the semicolon is deleted, not
replaced by a space — which differs from the claimed output `a b c"d`. -/
theorem remove_wrong_chars_example_counterexample :
    removeWrongChars ['a', ';', 'b', '\n', 'c', '\\', '"', 'd'] =
      ['a', 'b', ' ', 'c', '"', 'd'] ∧
    (['a', 'b', ' ', 'c', '"', 'd'] : List Char) ≠
      ['a', ' ', 'b', ' ', 'c', '"', 'd'] := by
  decide

/-- C9 (amended): on the boundary input `a;b\nc\"d` the function returns
`ab c"d` (semicolons are removed outright, newlines become spaces, `ё`
becomes `е`, and `\"` / `\'` are unescaped, in that order); and for every
input the output contains no semicolon, no newline, and no `ё`. -/
theorem remove_wrong_chars_behavior :
    removeWrongChars ['a', ';', 'b', '\n', 'c', '\\', '"', 'd'] =
      ['a', 'b', ' ', 'c', '"', 'd'] ∧
    ∀ l : List Char,
      (removeWrongChars l).contains ';' = false ∧
      (removeWrongChars l).contains '\n' = false ∧
      (removeWrongChars l).contains 'ё' = false := by
  refine ⟨by decide, fun l => ?_⟩
  have h0 : ∀ x : Char, x ∉ removeChar ';' l → False → True := fun _ _ _ => trivial
  have hs0 : (';' : Char) ∉ removeChar ';' l := by
    simp [removeChar]
  have hs1 : (';' : Char) ∉ replaceChar '\n' ' ' (removeChar ';' l) :=
    not_mem_replaceChar _ _ _ _ (by decide) (Or.inr hs0)
  have hs2 : (';' : Char) ∉ replaceChar 'ё' 'е' (replaceChar '\n' ' ' (removeChar ';' l)) :=
    not_mem_replaceChar _ _ _ _ (by decide) (Or.inr hs1)
  have hs3 : (';' : Char) ∉ unescapePair '\\' '"' '"'
      (replaceChar 'ё' 'е' (replaceChar '\n' ' ' (removeChar ';' l))) :=
    not_mem_unescapePair _ _ _ _ _ (by decide) hs2
  have hs4 : (';' : Char) ∉ removeWrongChars l :=
    not_mem_unescapePair _ _ _ _ _ (by decide) hs3
  have hn1 : ('\n' : Char) ∉ replaceChar '\n' ' ' (removeChar ';' l) :=
    not_mem_replaceChar _ _ _ _ (by decide) (Or.inl rfl)
  have hn2 : ('\n' : Char) ∉ replaceChar 'ё' 'е' (replaceChar '\n' ' ' (removeChar ';' l)) :=
    not_mem_replaceChar _ _ _ _ (by decide) (Or.inr hn1)
  have hn3 : ('\n' : Char) ∉ unescapePair '\\' '"' '"'
      (replaceChar 'ё' 'е' (replaceChar '\n' ' ' (removeChar ';' l))) :=
    not_mem_unescapePair _ _ _ _ _ (by decide) hn2
  have hn4 : ('\n' : Char) ∉ removeWrongChars l :=
    not_mem_unescapePair _ _ _ _ _ (by decide) hn3
  have he2 : ('ё' : Char) ∉ replaceChar 'ё' 'е' (replaceChar '\n' ' ' (removeChar ';' l)) :=
    not_mem_replaceChar _ _ _ _ (by decide) (Or.inl rfl)
  have he3 : ('ё' : Char) ∉ unescapePair '\\' '"' '"'
      (replaceChar 'ё' 'е' (replaceChar '\n' ' ' (removeChar ';' l))) :=
    not_mem_unescapePair _ _ _ _ _ (by decide) he2
  have he4 : ('ё' : Char) ∉ removeWrongChars l :=
    not_mem_unescapePair _ _ _ _ _ (by decide) he3
  refine ⟨by simpa using hs4, by simpa using hn4, by simpa using he4⟩

theorem runRows_append_ok (pre rest : List RowEnv)
    (h : pre.all (fun q => q.checkout && q.updateOk) = true) :
    runRows (pre ++ rest) = runRows rest := by
  induction pre with
  | nil => rfl
  | cons q qs ih =>
    simp only [List.all_cons, Bool.and_eq_true] at h
    rw [List.cons_append, runRows]
    simp [h.1.1, h.1.2]
    exact ih h.2

theorem runRows_all_ok (rows : List RowEnv)
    (h : rows.all (fun q => q.checkout && q.updateOk) = true) :
    runRows rows = none := by
  have := runRows_append_ok rows [] h
  simpa using this

theorem runRows_no_dbErr (rows : List RowEnv)
    (h : rows.all (fun q => q.updateOk) = true) :
    runRows rows = none ∨ runRows rows = some ProcOutcome.panicked := by
  induction rows with
  | nil => left; rfl
  | cons q qs ih =>
    simp only [List.all_cons, Bool.and_eq_true] at h
    rw [runRows]
    cases hq : q.checkout with
    | false => right; simp
    | true =>
      simp [h.1]
      exact ih h.2

/-- C10: in the body of `process`, a failed connection checkout — at the
before hook, at any per-row upsert, or at the after hook — yields a
panic (the `unwrap()` calls at `updater.rs` lines 130, 155, 171), and
the task's `Err` branch with a DB error is produced only by an actual
`before_update` / per-row `update` / `after_update` error, never by a
checkout failure. -/
theorem process_checkout_failure_panics :
    (∀ env : ProcEnv, env.download = true → env.readLines = true →
      env.beforeCheckout = false → processBody env = ProcOutcome.panicked) ∧
    (∀ (env : ProcEnv) (pre : List RowEnv) (r : RowEnv) (post : List RowEnv),
      env.download = true → env.readLines = true →
      env.beforeCheckout = true → env.beforeOk = true →
      env.rows = pre ++ r :: post →
      pre.all (fun q => q.checkout && q.updateOk) = true →
      r.checkout = false → processBody env = ProcOutcome.panicked) ∧
    (∀ env : ProcEnv, env.download = true → env.readLines = true →
      env.beforeCheckout = true → env.beforeOk = true →
      env.rows.all (fun q => q.checkout && q.updateOk) = true →
      env.afterCheckout = false → processBody env = ProcOutcome.panicked) ∧
    (∀ env : ProcEnv, env.beforeOk = true →
      env.rows.all (fun q => q.updateOk) = true → env.afterOk = true →
      processBody env ≠ ProcOutcome.err ProcErr.dbErr) := by
  refine ⟨?_, ?_, ?_, ?_⟩
  · intro env h1 h2 h3
    simp [processBody, h1, h2, h3]
  · intro env pre r post h1 h2 h3 h4 h5 h6 h7
    have hrows : runRows env.rows = some ProcOutcome.panicked := by
      rw [h5, runRows_append_ok pre _ h6, runRows]
      simp [h7]
    simp [processBody, h1, h2, h3, h4, hrows]
  · intro env h1 h2 h3 h4 h5 h6
    simp [processBody, h1, h2, h3, h4, runRows_all_ok _ h5, h6]
  · intro env h1 h2 h3 hcontra
    rw [processBody] at hcontra
    by_cases hd : env.download = true
    · by_cases hr : env.readLines = true
      · by_cases hb : env.beforeCheckout = true
        · rw [hd, hr, hb, h1] at hcontra
          simp only [Bool.not_true, Bool.false_eq_true, if_false] at hcontra
          rcases runRows_no_dbErr env.rows h2 with hn | hp
          · rw [hn] at hcontra
            by_cases ha : env.afterCheckout = true
            · rw [ha, h3] at hcontra
              simp at hcontra
            · have ha' : env.afterCheckout = false := by
                simpa using ha
              rw [ha'] at hcontra
              simp at hcontra
          · rw [hp] at hcontra
            simp at hcontra
        · have hb' : env.beforeCheckout = false := by simpa using hb
          rw [hd, hr, hb'] at hcontra
          simp at hcontra
      · have hr' : env.readLines = false := by simpa using hr
        rw [hd, hr'] at hcontra
        simp at hcontra
    · have hd' : env.download = false := by simpa using hd
      rw [hd'] at hcontra
      simp at hcontra

/-- C10 witness: the theorem applied at concrete environments — a failed
checkout before the `before` hook panics; a failed checkout at the only
row panics; a failed checkout before the `after` hook panics; and an
all-successful environment does not return a DB error. -/
theorem process_checkout_failure_panics_witness :
    processBody ⟨true, true, false, true, [], true, true⟩ = ProcOutcome.panicked ∧
    processBody ⟨true, true, true, true, [⟨false, true⟩], true, true⟩ = ProcOutcome.panicked ∧
    processBody ⟨true, true, true, true, [], false, true⟩ = ProcOutcome.panicked ∧
    processBody ⟨true, true, true, true, [⟨true, true⟩], true, true⟩ ≠
      ProcOutcome.err ProcErr.dbErr := by
  refine ⟨?_, ?_, ?_, ?_⟩
  · exact process_checkout_failure_panics.1 _ rfl rfl rfl
  · exact process_checkout_failure_panics.2.1
      ⟨true, true, true, true, [⟨false, true⟩], true, true⟩ [] ⟨false, true⟩ []
      rfl rfl rfl rfl rfl rfl rfl
  · exact process_checkout_failure_panics.2.2.1 _ rfl rfl rfl rfl rfl rfl
  · exact process_checkout_failure_panics.2.2.2 _ rfl rfl rfl
